import Mathlib

set_option maxHeartbeats 1000000
set_option maxRecDepth 8000

/-!
Shallow embedding of the annotation module of the weatherxm-qod repository
(`src/obc_sqc/model/annotation_utils.py`, class `AnnotationUtils`).

Modelling conventions:
* Timestamps are integers counting seconds since the epoch; one hour is
  3600 s, one day 86400 s.  `pandas.Timestamp.replace` on calendar fields
  at second granularity is floor arithmetic on that scale.
* A pandas float arising as `0/0` over an all-missing hour is `NaN`;
  percentages are therefore `Option` rationals, `none` standing for `NaN`
  (`NaN > 0` is false in pandas, and `Series.any` skips `NaN`).
* Percentages are exact rationals; Python's `"%.1f"` float rendering is
  modelled as round-half-to-even at one decimal.
-/

namespace ObcSqc

/-- Model of one cell of the `utc_datetime` column: `parsed` records
whether `pd.to_datetime` has been applied, `t` the instant in seconds. -/
structure TimeCell where
  parsed : Bool
  t : Int
deriving DecidableEq

/-- Model of `pd.to_datetime` applied to one cell: normalizes the
representation, preserving the instant. -/
def toDatetime (c : TimeCell) : TimeCell := { parsed := true, t := c.t }

/-- One row of a time-indexed fault table handed to the aggregator:
`time` is the index value, `vals` the fault-column values positionally
aligned with the vocabulary in use. -/
structure Row where
  time : Int
  vals : List Int
deriving DecidableEq

/-- An ordered fault-code vocabulary: (column name, text code) pairs. -/
abbrev Vocab := List (String × String)

/-- Calendar truncation to the hour (`replace(minute=0, second=0,
microsecond=0)`) at second granularity. -/
def truncToHour (t : Int) : Int := t / 3600 * 3600

/-- `start_time + pd.DateOffset(hours=h)`: start of window `h`. -/
def startHour (s : Int) (h : Nat) : Int := s + (h : Int) * 3600

/-- `start_time + pd.DateOffset(hours=h+1)`: end of window `h`. -/
def endHour (s : Int) (h : Nat) : Int := s + ((h : Int) + 1) * 3600

/-- Bucket label: window start advanced by 30 minutes, truncated to the
hour (`(start_hour + timedelta(minutes=30)).replace(minute=0, ...)`). -/
def roundedHour (ws : Int) : Int := truncToHour (ws + 1800)

/-- The half-open window test `(df.index >= start) & (df.index < end)`. -/
def inWindow (a b : Int) (r : Row) : Bool := decide (a ≤ r.time) && decide (r.time < b)

/-- `count_rows_in_range`: number of rows of `df` whose index lies in
`[start, end)`. -/
def count_rows_in_range (df : List Row) (a b : Int) : Nat :=
  (df.filter (inWindow a b)).length

/-- `count_positive_rows_in_range`: per column, the number of rows in the
window whose value is `> 0` (`(filtered_df > 0).sum()`). -/
def count_positive_rows_in_range (df : List Row) (n : Nat) (a b : Int) : List Nat :=
  (List.range n).map
    (fun j => ((df.filter (inWindow a b)).filter (fun r => decide (0 < r.vals.getD j 0))).length)

/-- One column's percentage `positive / total * 100`: the float is kept
exactly as its pair of counts `(positive, total)`; `none` models the `NaN`
produced by pandas when `total = 0`.  The rational value of the pair is
`pctValue`. -/
def pctOf (p : Nat) (t : Nat) : Option (Nat × Nat) :=
  if t = 0 then none else some (p, t)

/-- The exact rational value of a stored percentage pair. -/
def pctValue (pt : Nat × Nat) : ℚ := (pt.1 : ℚ) / (pt.2 : ℚ) * 100

/-- The per-bucket percentage Series `(a / b) * 100`. -/
def bucketPercs (df : List Row) (n : Nat) (a b : Int) : List (Option (Nat × Nat)) :=
  (count_positive_rows_in_range df n a b).map
    (fun p => pctOf p (count_rows_in_range df a b))

/-- Model of `item.any()` on the percentage Series: some entry is truthy,
`NaN` entries skipped (`skipna=True`).  The float `p/t*100` (with `t ≠ 0`)
is nonzero exactly when the count `p` is nonzero. -/
def anyPos (ps : List (Option (Nat × Nat))) : Bool :=
  ps.any (fun o => o.elim false (fun pt => decide (pt.1 ≠ 0)))

/-- Decimal rendering of a tenths count, e.g. `833 ↦ "83.3"`. -/
def toDec (n : Nat) : String := s!"{n / 10}.{n % 10}"

/-- Model of Python `f"{percentage:.1f}"` for `percentage = p/t*100`:
round `1000*p/t` (the value in tenths) half to even and render it with
one decimal. -/
def fmtPct (p t : Nat) : String :=
  let q := 1000 * p / t
  let r := 1000 * p % t
  toDec (if 2 * r < t then q else if t < 2 * r then q + 1
         else if q % 2 = 0 then q else q + 1)

/-- The selection the comprehension performs before formatting: vocabulary
code paired with its exact percentage, kept only when `percentage > 0`
(`NaN > 0` is false in Python, and `p/t*100 > 0` iff `0 < p`). -/
def pairSel (cp : String × Option (Nat × Nat)) : Option (String × (Nat × Nat)) :=
  match cp.2 with
  | none => none
  | some pt => if 0 < pt.1 then some (cp.1, pt) else none

/-- Structured content of one bucket's report entry: (code, percentage)
pairs in vocabulary order, positive percentages only. -/
def bucketPairsQ (df : List Row) (vocab : Vocab) (a b : Int) : List (String × (Nat × Nat)) :=
  ((vocab.map Prod.snd).zip (bucketPercs df vocab.length a b)).filterMap pairSel

/-- Rendering of one selected pair: the singleton list
`[f"{code}, {percentage:.1f}"]` the comprehension builds. -/
def renderPair (cp : String × (Nat × Nat)) : List String :=
  [cp.1 ++ ", " ++ fmtPct cp.2.1 cp.2.2]

/-- One bucket's report entry, including the `if item.any() > 0 else []`
guard of the source. -/
def bucketEntry (df : List Row) (vocab : Vocab) (a b : Int) : List (List String) :=
  if anyPos (bucketPercs df vocab.length a b) then (bucketPairsQ df vocab a b).map renderPair
  else []

/-- `AnnotationUtils.create_annotations_percentages_list`: the 24-bucket
hourly fault-percentage Series, indexed by the rounded-hour labels. -/
def create_annotations_percentages_list (df : List Row) (vocab : Vocab) (start_time : Int) :
    List (Int × List (List String)) :=
  (List.range 24).map
    (fun h => (roundedHour (startHour start_time h),
               bucketEntry df vocab (startHour start_time h) (endHour start_time h)))

/-- One input row of `text_annotation`: the seven `ann_*` fault columns
the function reads. -/
structure EncRow where
  ann_obc : Int
  ann_invalid_datum : Int
  ann_unidentified_spike : Int
  ann_no_datum : Int
  ann_constant : Int
  ann_constant_long : Int
  ann_constant_frozen : Int
deriving DecidableEq

/-- The `conditions` dictionary of `text_annotation`, in declaration
order. -/
def conditions : List (String × String) :=
  [("obc", "OBC"),
   ("invalid_datum", "SPIKE_INST"),
   ("unidentified_spike", "UNIDENTIFIED_SPIKE"),
   ("no_datum", "NO_DATA"),
   ("constant", "SHORT_CONST"),
   ("constant_long", "LONG_CONST"),
   ("constant_frozen", "FROZEN_SENSOR")]

/-- Column access `fnl_df[f"ann_{key}"]` for one row. -/
def annValue (r : EncRow) (k : String) : Int :=
  if k = "obc" then r.ann_obc
  else if k = "invalid_datum" then r.ann_invalid_datum
  else if k = "unidentified_spike" then r.ann_unidentified_spike
  else if k = "no_datum" then r.ann_no_datum
  else if k = "constant" then r.ann_constant
  else if k = "constant_long" then r.ann_constant_long
  else if k = "constant_frozen" then r.ann_constant_frozen
  else 0

/-- The per-condition contributions `masks_df * texts_df` for one row:
`f"{value},"` when the mask is set, the empty string otherwise. -/
def encPieces (r : EncRow) : List String :=
  conditions.map (fun kv => if 0 < annValue r kv.1 then kv.2 ++ "," else "")

/-- `str.rstrip(delim)`: remove every trailing delimiter character. -/
def rstripComma (s : String) : String :=
  ⟨(s.data.reverse.dropWhile (fun c => c = ',')).reverse⟩

/-- `AnnotationUtils.text_annotation` restricted to one row: concatenate
the contributions along the columns and strip the last delimiter. -/
def text_annotation (r : EncRow) : String :=
  rstripComma (String.join (encPieces r))

/-- The annotation string as the specification words it: the comma-joined
codes of the positive vocabulary columns, in declaration order. -/
def annotationSpec (r : EncRow) : String :=
  String.intercalate "," ((conditions.filter (fun kv => 0 < annValue r kv.1)).map Prod.snd)

/-- One row as seen by `update_ann_text`: the value of the inspected flag
column and the current `annotation` field. -/
structure PatchRow where
  flagVal : Int
  annot : String
deriving DecidableEq

/-- `AnnotationUtils.update_ann_text`: append `new_text` when the flag is
positive and `new_text` is not already a substring of the annotation. -/
def update_ann_text (row : PatchRow) (new_text : String) : PatchRow :=
  if 0 < row.flagVal ∧ ¬ new_text.data <:+: row.annot.data then
    if 0 < row.annot.length then { row with annot := row.annot ++ "," ++ new_text }
    else { row with annot := new_text }
  else row

/-- A DataFrame as handed to `error_codes_hourly`: the `utc_datetime`
column (equivalently the datetime index, for the minute table) and the
remaining columns, name to values.  All columns have the row count of
`utc`. -/
structure MergeDF where
  utc : List TimeCell
  cols : List (String × List Int)
deriving DecidableEq

/-- Column lookup in a DataFrame. -/
def lookupCol (cols : List (String × List Int)) (name : String) : Option (List Int) :=
  (cols.find? (fun c => c.1 = name)).map Prod.snd

/-- The column selection `df.loc[:, list(selected_columns.keys())]`:
`none` models the `KeyError` on a missing column. -/
def selectCols (cols : List (String × List Int)) : List String → Option (List (List Int))
  | [] => some []
  | n :: ns =>
    match lookupCol cols n, selectCols cols ns with
    | some c, some rest => some (c :: rest)
    | _, _ => none

/-- Turn the index column and the selected columns into aggregator rows:
row `i` carries index value `i` and the `i`-th entry of each column. -/
def buildRows (utc : List TimeCell) (selected : List (List Int)) : List Row :=
  (List.range utc.length).map
    (fun i => { time := (utc.getD i ⟨true, 0⟩).t, vals := selected.map (fun col => col.getD i 0) })

/-- The row slice `df.loc[start_time:end_time]`: label slicing is
inclusive of both endpoints. -/
def locFilter (rows : List Row) (a b : Int) : List Row :=
  rows.filter (fun r => decide (a ≤ r.time) && decide (r.time ≤ b))

/-- The raw-level vocabulary (`selected_columns` of `error_codes_hourly`,
first assignment). -/
def rawVocab : Vocab :=
  [("ann_obc", "OBC"),
   ("ann_invalid_datum", "SPIKE_INST"),
   ("ann_unidentified_spike", "UNIDENTIFIED_SPIKE"),
   ("ann_no_datum", "NO_DATA"),
   ("ann_constant", "SHORT_CONST"),
   ("ann_constant_long", "LONG_CONST"),
   ("ann_constant_frozen", "FROZEN_SENSOR")]

/-- The minute-level vocabulary (second assignment to
`selected_columns`). -/
def minuteVocab : Vocab :=
  [("ann_invalid_datum", "ANOMALOUS_INCREASE"),
   ("ann_unidentified_change", "UNIDENTIFIED_ANOMALOUS_CHANGE")]

/-- `end_time`: the maximum raw timestamp with the time fields replaced
by 23:59:59 (floor to the day, then add 86399 s). -/
def derivedEnd (mx : Int) : Int := mx / 86400 * 86400 + (23 * 3600 + 59 * 60 + 59)

/-- `start_time`: `end_time` with the time fields replaced by 00:00:00. -/
def derivedStart (mx : Int) : Int := derivedEnd mx / 86400 * 86400

/-- `zip(..., strict=True)`: `none` models the `ValueError` raised when
the lengths diverge. -/
def zipStrict : List α → List β → Option (List (α × β))
  | [], [] => some []
  | a :: as, b :: bs => (zipStrict as bs).map (fun l => (a, b) :: l)
  | _, _ => none

/-- The raw-data aggregator call of `error_codes_hourly`: filter the raw
table to the derived day and the raw vocabulary columns, then aggregate
anchored at `start_time`. -/
def aggRawOf (raw : MergeDF) (rsel : List (List Int)) (mx : Int) :
    List (Int × List (List String)) :=
  create_annotations_percentages_list
    (locFilter (buildRows (raw.utc.map toDatetime) rsel) (derivedStart mx) (derivedEnd mx))
    rawVocab (derivedStart mx)

/-- The minute-data aggregator call of `error_codes_hourly`: the minute
table is filtered with the window derived from the raw table, and the
same `start_time` anchors the aggregation. -/
def aggMinOf (minute : MergeDF) (msel : List (List Int)) (mx : Int) :
    List (Int × List (List String)) :=
  create_annotations_percentages_list
    (locFilter (buildRows minute.utc msel) (derivedStart mx) (derivedEnd mx))
    minuteVocab (derivedStart mx)

/-- `AnnotationUtils.error_codes_hourly`.  The result carries, in order:
the post-call state of the first argument (whose `utc_datetime` column the
function overwrites in place with the converted values), the post-call
state of the second argument (untouched), and the merged 24-entry hourly
report.  `none` models the exceptions: an empty raw index, a missing
vocabulary column, or a strict-zip length mismatch. -/
def error_codes_hourly (raw minute : MergeDF) :
    Option (MergeDF × MergeDF × List (Int × List (List String) × List (List String))) :=
  match ((raw.utc.map toDatetime).map (fun c => c.t)).max? with
  | none => none
  | some mx =>
    match selectCols raw.cols (rawVocab.map Prod.fst),
          selectCols minute.cols (minuteVocab.map Prod.fst) with
    | some rsel, some msel =>
      match zipStrict (aggRawOf raw rsel mx) (aggMinOf minute msel mx) with
      | none => none
      | some pairs =>
        some ({ raw with utc := raw.utc.map toDatetime }, minute,
              pairs.map (fun ab => (ab.1.1, ab.1.2, ab.2.2)))
    | _, _ => none

/-- The merged pairing of the two aggregator outputs: `zip` of the value
sequences, re-labelled with the raw Series' index (`[list(pair) for pair
in zip(...)]` with `index=annotations_based_on_raw.index`). -/
def mergedPairs (raw minute : MergeDF) (rsel msel : List (List Int)) (mx : Int) :
    List (Int × List (List String) × List (List String)) :=
  ((aggRawOf raw rsel mx).zip (aggMinOf minute msel mx)).map
    (fun ab => (ab.1.1, ab.1.2, ab.2.2))

/-- Concrete raw table for witnesses: one reading at the epoch, all seven
raw fault columns present and zero. -/
def rawW : MergeDF :=
  { utc := [{ parsed := false, t := 0 }], cols := rawVocab.map (fun kv => (kv.1, [0])) }

/-- Concrete minute table for witnesses: one row at the epoch, both
minute fault columns present and zero. -/
def minW : MergeDF :=
  { utc := [{ parsed := true, t := 0 }], cols := minuteVocab.map (fun kv => (kv.1, [0])) }

/-- The column selection of `rawW`. -/
def rselW : List (List Int) := [[0], [0], [0], [0], [0], [0], [0]]

/-- The column selection of `minW`. -/
def mselW : List (List Int) := [[0], [0]]

/-- Row `k` of the 2001-row table: one column, positive only at `k = 0`. -/
def dfBigRow (k : Nat) : Row := { time := (k : Int), vals := [if k = 0 then (1 : Int) else 0] }

/-- A 2001-row single-column table inside hour 0, exactly one positive
sample: its percentage is `100/2001`, strictly positive yet below one
tenth. -/
def dfBig : List Row := (List.range 2001).map dfBigRow

lemma annValue_obc (r : EncRow) : annValue r "obc" = r.ann_obc := rfl

lemma annValue_invalid_datum (r : EncRow) : annValue r "invalid_datum" = r.ann_invalid_datum := rfl

lemma annValue_unidentified_spike (r : EncRow) :
    annValue r "unidentified_spike" = r.ann_unidentified_spike := rfl

lemma annValue_no_datum (r : EncRow) : annValue r "no_datum" = r.ann_no_datum := rfl

lemma annValue_constant (r : EncRow) : annValue r "constant" = r.ann_constant := rfl

lemma annValue_constant_long (r : EncRow) : annValue r "constant_long" = r.ann_constant_long := rfl

lemma annValue_constant_frozen (r : EncRow) :
    annValue r "constant_frozen" = r.ann_constant_frozen := rfl

/-- C1: the claim says the per-row encoder never emits the `"NO_DATA"`
code.  The code does emit it: on a row whose `ann_no_datum` column is
positive (all other fault columns zero) the produced annotation is
exactly `"NO_DATA"`, contradicting both the claim and the function's own
docstring ("We do not include ann_no_datum annotation"). -/
theorem c1_encoder_emits_no_data : text_annotation ⟨0, 0, 0, 1, 0, 0, 0⟩ = "NO_DATA" := by
  decide

/-- C5: for every row, `text_annotation` produces the comma-joined
concatenation, in vocabulary declaration order, of the codes of exactly
the positive fault columns, trailing delimiter stripped (empty when no
column is positive); and the row `ann_obc=2, ann_constant=1` yields
`"OBC,SHORT_CONST"`. -/
theorem c5_encoder_join :
    (∀ r : EncRow, text_annotation r = annotationSpec r) ∧
    text_annotation ⟨2, 0, 0, 0, 1, 0, 0⟩ = "OBC,SHORT_CONST" := by
  refine ⟨fun r => ?_, by decide⟩
  by_cases h1 : 0 < r.ann_obc <;>
  by_cases h2 : 0 < r.ann_invalid_datum <;>
  by_cases h3 : 0 < r.ann_unidentified_spike <;>
  by_cases h4 : 0 < r.ann_no_datum <;>
  by_cases h5 : 0 < r.ann_constant <;>
  by_cases h6 : 0 < r.ann_constant_long <;>
  by_cases h7 : 0 < r.ann_constant_frozen <;>
  (simp only [ text_annotation, annotationSpec, encPieces, conditions, List.map_cons,
    List.map_nil, List.filter_cons, List.filter_nil, annValue_obc, annValue_invalid_datum,
    annValue_unidentified_spike, annValue_no_datum, annValue_constant, annValue_constant_long,
    annValue_constant_frozen, h1, h2, h3, h4, h5, h6, h7, decide_True, decide_False,
    if_true, if_false, eq_self_iff_true, not_true, not_false_iff]; decide)

lemma empty_of_length_zero {s : String} (h : ¬ 0 < s.length) : s = "" := by
  have h1 : s.data.length = 0 := by
    have h2 : s.length = s.data.length := rfl
    omega
  have h0 : s.data = [] := List.length_eq_zero.mp h1
  exact String.ext (by rw [h0])

/-- Characterization of `update_ann_text` as a record value. -/
lemma update_ann_text_eq (row : PatchRow) (nt : String) :
    update_ann_text row nt =
      { flagVal := row.flagVal,
        annot := if 0 < row.flagVal ∧ ¬ nt.data <:+: row.annot.data then
                   (if 0 < row.annot.length then row.annot ++ "," ++ nt else nt)
                 else row.annot } := by
  unfold update_ann_text
  split_ifs <;> rfl

/-- C6: `update_ann_text` appends the label exactly when the flag column
is positive and the label is not a substring of the current annotation
(comma-delimited when the annotation is non-empty, the bare label when
empty), and applying it twice with the same label and flag equals
applying it once. -/
theorem c6_patcher_idempotent (row : PatchRow) (nt : String) :
    (update_ann_text row nt).annot =
      (if 0 < row.flagVal ∧ ¬ nt.data <:+: row.annot.data then
        (if row.annot = "" then nt else row.annot ++ "," ++ nt)
       else row.annot) ∧
    (update_ann_text row nt).flagVal = row.flagVal ∧
    update_ann_text (update_ann_text row nt) nt = update_ann_text row nt := by
  refine ⟨?_, by rw [update_ann_text_eq], ?_⟩
  · rw [update_ann_text_eq]
    by_cases he : row.annot = ""
    · have hl : ¬ 0 < row.annot.length := by rw [he]; decide
      simp only [if_pos he, if_neg hl]
    · have hl : 0 < row.annot.length := by
        by_contra hcon
        exact he (empty_of_length_zero hcon)
      simp only [if_pos hl, if_neg he]
  · by_cases hc : 0 < row.flagVal ∧ ¬ nt.data <:+: row.annot.data
    · obtain ⟨hf, hs⟩ := hc
      by_cases hl : 0 < row.annot.length
      · have hsub : nt.data <:+: row.annot.data ++ ',' :: nt.data :=
          ⟨row.annot.data ++ [','], [], by simp⟩
        simp [update_ann_text, String.data_append, hf, hs, hl, hsub]
      · simp [update_ann_text, hf, hs, hl, List.infix_refl]
    · simp [update_ann_text, hc]

lemma capl_length (df : List Row) (vocab : Vocab) (s : Int) :
    (create_annotations_percentages_list df vocab s).length = 24 := by
  simp [create_annotations_percentages_list]

lemma capl_getD (df : List Row) (vocab : Vocab) (s : Int) (i : Nat)
    (h : i < 24) (d : Int × List (List String)) :
    (create_annotations_percentages_list df vocab s).getD i d =
      (roundedHour (startHour s i), bucketEntry df vocab (startHour s i) (endHour s i)) := by
  simp [create_annotations_percentages_list, List.getD, List.getElem?_map, List.getElem?_range, h]

/-- C2: an hour bucket whose window holds no rows yields an empty report
entry: the `0/0` percentages are `NaN`, `Series.any` skips them, and the
comprehension's `> 0` filter rejects them, so neither an error nor a
positive percentage is produced. -/
theorem c2_empty_hour (df : List Row) (vocab : Vocab) (s : Int) (i : Nat) (h : i < 24)
    (h0 : count_rows_in_range df (startHour s i) (endHour s i) = 0) :
    ((create_annotations_percentages_list df vocab s).getD i (0, [["DEFAULT"]])).2 = [] := by
  rw [capl_getD df vocab s i h]
  have hany : anyPos (bucketPercs df vocab.length (startHour s i) (endHour s i)) = false := by
    unfold anyPos bucketPercs
    rw [List.any_eq_false]
    intro o ho
    obtain ⟨p, _, hp⟩ := List.mem_map.mp ho
    rw [h0] at hp
    simp [pctOf] at hp
    simp [← hp]
  simp [bucketEntry, hany]

/-- C7 counterexample: at the hour-aligned start time 0 the label of
bucket 0 equals the window start, so the claim's "the bucket label is NOT
the window start" fails as a universal statement. -/
theorem c7_counterexample :
    ((create_annotations_percentages_list [] [] 0).getD 0 (1, [])).1 = startHour 0 0 := by
  decide

/-- C7 amended: for every start time and bucket `i < 24`, the bucket
label is the window start advanced by 30 minutes and truncated to the
hour; this label differs from the window start whenever the start time is
not hour-aligned (for hour-aligned start times the two coincide). -/
theorem c7_label_formula (df : List Row) (vocab : Vocab) (s : Int) (i : Nat) (h : i < 24) :
    ((create_annotations_percentages_list df vocab s).getD i (1, [])).1 =
      truncToHour (startHour s i + 1800) ∧
    (¬ (3600 : Int) ∣ s →
      ((create_annotations_percentages_list df vocab s).getD i (1, [])).1 ≠ startHour s i) := by
  rw [capl_getD df vocab s i h]
  refine ⟨rfl, fun hnd heq => ?_⟩
  have heq' : (startHour s i + 1800) / 3600 * 3600 = startHour s i := heq
  unfold startHour at heq'
  omega

/-- C7 witness at start time 1800 (half past the hour) and bucket 0. -/
theorem c7_witness :
    (0 < 24 ∧ ¬ (3600 : Int) ∣ 1800) ∧
    (((create_annotations_percentages_list [] [] 1800).getD 0 (1, [])).1 =
      truncToHour (startHour 1800 0 + 1800) ∧
    (¬ (3600 : Int) ∣ 1800 →
      ((create_annotations_percentages_list [] [] 1800).getD 0 (1, [])).1 ≠ startHour 1800 0)) :=
  ⟨⟨by decide, by decide⟩, c7_label_formula [] [] 1800 0 (by decide)⟩

lemma count_cons (r : Row) (df : List Row) (a b : Int) :
    count_rows_in_range (r :: df) a b =
      (if inWindow a b r then 1 else 0) + count_rows_in_range df a b := by
  unfold count_rows_in_range
  rw [List.filter_cons]
  by_cases hw : inWindow a b r
  · simp [hw]
    omega
  · simp [hw]

lemma sum_map_add {α : Type} (l : List α) (f g : α → Nat) :
    (l.map (fun x => f x + g x)).sum = (l.map f).sum + (l.map g).sum := by
  induction l with
  | nil => simp
  | cons a t ih =>
    simp only [List.map_cons, List.sum_cons, ih]
    omega

lemma ind_sum_zero (s : Int) (r : Row) :
    ∀ n : Nat, s + (n : Int) * 3600 ≤ r.time →
      ((List.range n).map
        (fun h => if inWindow (startHour s h) (endHour s h) r then 1 else 0)).sum = 0 := by
  intro n
  induction n with
  | zero => intro _; simp
  | succ m ih =>
    intro hge
    rw [List.range_succ, List.map_append, List.sum_append]
    have h1 := ih (by push_cast at hge ⊢; omega)
    have h2 : inWindow (startHour s m) (endHour s m) r = false := by
      have hlt : ¬ (r.time < s + ((m : Int) + 1) * 3600) := by push_cast at hge; omega
      simp [inWindow, startHour, endHour, hlt]
    simp [h1, h2]

lemma ind_sum_one (s : Int) (r : Row) :
    ∀ n : Nat, s ≤ r.time → r.time < s + (n : Int) * 3600 →
      ((List.range n).map
        (fun h => if inWindow (startHour s h) (endHour s h) r then 1 else 0)).sum = 1 := by
  intro n
  induction n with
  | zero =>
    intro h1 h2
    exfalso
    push_cast at h2
    omega
  | succ m ih =>
    intro h1 h2
    rw [List.range_succ, List.map_append, List.sum_append]
    by_cases hm : r.time < s + (m : Int) * 3600
    · have hih := ih h1 hm
      have h2' : inWindow (startHour s m) (endHour s m) r = false := by
        have hge : ¬ (s + (m : Int) * 3600 ≤ r.time) := by omega
        simp [inWindow, startHour, endHour, hge]
      simp [hih, h2']
    · have h0 := ind_sum_zero s r m (by omega)
      have h2' : inWindow (startHour s m) (endHour s m) r = true := by
        simp only [inWindow, startHour, endHour, Bool.and_eq_true, decide_eq_true_eq]
        refine ⟨by omega, by push_cast at h2 ⊢; omega⟩
      simp [h0, h2']

lemma sum_counts (s : Int) :
    ∀ df : List Row, (∀ r ∈ df, s ≤ r.time ∧ r.time < s + 86400) →
      ((List.range 24).map
        (fun h => count_rows_in_range df (startHour s h) (endHour s h))).sum = df.length := by
  intro df
  induction df with
  | nil => intro _; simp [count_rows_in_range]
  | cons r tl ih =>
    intro hin
    have hr := hin r (List.mem_cons_self r tl)
    have htl : ∀ x ∈ tl, s ≤ x.time ∧ x.time < s + 86400 :=
      fun x hx => hin x (List.mem_cons_of_mem r hx)
    simp only [count_cons]
    rw [sum_map_add, ih htl, ind_sum_one s r 24 hr.1 (by push_cast; omega)]
    simp [Nat.add_comm]

/-- C4: the aggregator always produces exactly 24 buckets with windows
`[start+i h, start+(i+1) h)`, and when every row's timestamp lies in
`[start, start+24h)` the per-bucket totals sum to the row count of the
table: each row lands in exactly one bucket. -/
theorem c4_bucket_partition (df : List Row) (vocab : Vocab) (s : Int)
    (hin : ∀ r ∈ df, s ≤ r.time ∧ r.time < s + 86400) :
    (create_annotations_percentages_list df vocab s).length = 24 ∧
    ((List.range 24).map
      (fun h => count_rows_in_range df (startHour s h) (endHour s h))).sum = df.length := by
  exact ⟨capl_length df vocab s, sum_counts s df hin⟩

/-- C4 witness: a one-row table inside the day. -/
theorem c4_witness :
    (∀ r ∈ [({ time := 100, vals := [] } : Row)], (0 : Int) ≤ r.time ∧ r.time < 0 + 86400) ∧
    ((create_annotations_percentages_list [{ time := 100, vals := [] }] [] 0).length = 24 ∧
     ((List.range 24).map
       (fun h => count_rows_in_range [{ time := 100, vals := [] }] (startHour 0 h) (endHour 0 h))).sum =
       List.length [({ time := 100, vals := [] } : Row)]) :=
  ⟨by decide, c4_bucket_partition [{ time := 100, vals := [] }] [] 0 (by decide)⟩

/-- C2 witness: an empty table, bucket 0. -/
theorem c2_witness :
    (0 < 24 ∧ count_rows_in_range [] (startHour 0 0) (endHour 0 0) = 0) ∧
    ((create_annotations_percentages_list [] [("ann_obc", "OBC")] 0).getD 0 (0, [["DEFAULT"]])).2 = [] :=
  ⟨⟨by decide, by decide⟩,
   c2_empty_hour [] [("ann_obc", "OBC")] 0 0 (by decide) (by decide)⟩

lemma pos_le_total (df : List Row) (n : Nat) (a b : Int) (p : Nat)
    (hp : p ∈ count_positive_rows_in_range df n a b) :
    p ≤ count_rows_in_range df a b := by
  unfold count_positive_rows_in_range at hp
  obtain ⟨j, _, hj⟩ := List.mem_map.mp hp
  rw [← hj]
  exact List.length_filter_le _ _

lemma bucketPercs_length (df : List Row) (n : Nat) (a b : Int) :
    (bucketPercs df n a b).length = n := by
  simp [bucketPercs, count_positive_rows_in_range]

lemma bucketPairsQ_mem {df : List Row} {vocab : Vocab} {a b : Int}
    {cq : String × (Nat × Nat)} (h : cq ∈ bucketPairsQ df vocab a b) :
    0 < cq.2.1 ∧ cq.2.1 ≤ count_rows_in_range df a b ∧
    cq.2.2 = count_rows_in_range df a b ∧ count_rows_in_range df a b ≠ 0 := by
  unfold bucketPairsQ at h
  obtain ⟨cp, hmem, hsel⟩ := List.mem_filterMap.mp h
  have h2 := (List.of_mem_zip hmem).2
  unfold bucketPercs at h2
  obtain ⟨p, hp, hpct⟩ := List.mem_map.mp h2
  by_cases ht : count_rows_in_range df a b = 0
  · rw [ht] at hpct
    simp [pctOf] at hpct
    simp only [pairSel, ← hpct] at hsel
    exact absurd hsel (by simp)
  · simp only [pctOf, if_neg ht] at hpct
    simp only [pairSel, ← hpct] at hsel
    by_cases hpos : 0 < p
    · rw [if_pos hpos] at hsel
      have hcq : cq = (cp.1, p, count_rows_in_range df a b) := (Option.some.inj hsel).symm
      rw [hcq]
      exact ⟨hpos, pos_le_total df vocab.length a b p hp, rfl, ht⟩
    · rw [if_neg hpos] at hsel
      exact absurd hsel (by simp)

lemma bucketEntry_eq (df : List Row) (vocab : Vocab) (a b : Int) :
    bucketEntry df vocab a b = (bucketPairsQ df vocab a b).map renderPair := by
  unfold bucketEntry
  by_cases hany : anyPos (bucketPercs df vocab.length a b) = true
  · rw [if_pos hany]
  · rw [if_neg hany]
    have hnil : bucketPairsQ df vocab a b = [] := by
      rw [List.eq_nil_iff_forall_not_mem]
      intro cq hcq
      apply hany
      unfold bucketPairsQ at hcq
      obtain ⟨cp, hmem, hsel⟩ := List.mem_filterMap.mp hcq
      have h2 := (List.of_mem_zip hmem).2
      unfold anyPos
      rw [List.any_eq_true]
      refine ⟨cp.2, h2, ?_⟩
      unfold pairSel at hsel
      cases hc2 : cp.2 with
      | none =>
        rw [hc2] at hsel
        exact absurd hsel (by simp)
      | some pt =>
        simp only [hc2] at hsel
        by_cases hpos : 0 < pt.1
        · simp only [Option.elim]
          simp
          omega
        · rw [if_neg hpos] at hsel
          exact absurd hsel (by simp)
    rw [hnil]
    rfl

lemma map_fst_pairSel (l : List (String × Option (Nat × Nat))) :
    ((l.filterMap pairSel).map Prod.fst).Sublist (l.map Prod.fst) := by
  induction l with
  | nil => simp
  | cons cp t ih =>
    rw [List.filterMap_cons]
    cases hsel : pairSel cp with
    | none =>
      rw [List.map_cons]
      exact ih.cons _
    | some cq =>
      have hfst : cq.1 = cp.1 := by
        unfold pairSel at hsel
        cases hc2 : cp.2 with
        | none =>
          rw [hc2] at hsel
          exact absurd hsel (by simp)
        | some pt =>
          simp only [hc2] at hsel
          by_cases hpos : 0 < pt.1
          · rw [if_pos hpos] at hsel
            rw [← Option.some.inj hsel]
          · rw [if_neg hpos] at hsel
            exact absurd hsel (by simp)
      rw [List.map_cons, List.map_cons, ← hfst]
      exact ih.cons₂ _

/-- C8: every bucket entry of the aggregator renders the structured pairs
of `bucketPairsQ`; each selected pair's exact percentage `p/t*100`
satisfies `0 < pct ≤ 100` (the positive count never exceeds the total),
the codes appear in vocabulary order (a sublist of the vocabulary's
codes), and non-positive percentages are omitted by construction. -/
theorem c8_percentage_invariant (df : List Row) (vocab : Vocab) (s : Int) (i : Nat)
    (h : i < 24) :
    ((create_annotations_percentages_list df vocab s).getD i (0, [["DEFAULT"]])).2 =
      (bucketPairsQ df vocab (startHour s i) (endHour s i)).map renderPair ∧
    (∀ cq ∈ bucketPairsQ df vocab (startHour s i) (endHour s i),
      0 < pctValue cq.2 ∧ pctValue cq.2 ≤ 100) ∧
    ((bucketPairsQ df vocab (startHour s i) (endHour s i)).map Prod.fst).Sublist
      (vocab.map Prod.snd) := by
  refine ⟨?_, ?_, ?_⟩
  · rw [capl_getD df vocab s i h]
    exact bucketEntry_eq df vocab _ _
  · intro cq hcq
    obtain ⟨hpos, hle, htot, hne⟩ := bucketPairsQ_mem hcq
    have ht' : (0 : ℚ) < (cq.2.2 : ℚ) := by
      rw [htot]
      exact_mod_cast Nat.pos_of_ne_zero hne
    have hp' : (0 : ℚ) < (cq.2.1 : ℚ) := by exact_mod_cast hpos
    constructor
    · unfold pctValue
      apply mul_pos (div_pos hp' ht')
      norm_num
    · unfold pctValue
      have hdiv : (cq.2.1 : ℚ) / (cq.2.2 : ℚ) ≤ 1 := by
        rw [div_le_one ht']
        rw [htot]
        exact_mod_cast hle
      have := mul_le_mul_of_nonneg_right hdiv (by norm_num : (0:ℚ) ≤ 100)
      simpa using this
  · have hsub := map_fst_pairSel
      ((vocab.map Prod.snd).zip (bucketPercs df vocab.length (startHour s i) (endHour s i)))
    rw [List.map_fst_zip] at hsub
    · exact hsub
    · rw [bucketPercs_length]
      simp

/-- C8 witness: one row with a positive fault value, bucket 0. -/
theorem c8_witness :
    (0 : Nat) < 24 ∧
    (((create_annotations_percentages_list [{ time := 0, vals := [1] }]
        [("ann_obc", "OBC")] 0).getD 0 (0, [["DEFAULT"]])).2 =
      (bucketPairsQ [{ time := 0, vals := [1] }] [("ann_obc", "OBC")]
        (startHour 0 0) (endHour 0 0)).map renderPair ∧
    (∀ cq ∈ bucketPairsQ [{ time := 0, vals := [1] }] [("ann_obc", "OBC")]
        (startHour 0 0) (endHour 0 0),
      0 < pctValue cq.2 ∧ pctValue cq.2 ≤ 100) ∧
    ((bucketPairsQ [{ time := 0, vals := [1] }] [("ann_obc", "OBC")]
        (startHour 0 0) (endHour 0 0)).map Prod.fst).Sublist
      ([("ann_obc", "OBC")].map Prod.snd)) :=
  ⟨by decide,
   c8_percentage_invariant [{ time := 0, vals := [1] }] [("ann_obc", "OBC")] 0 0 (by decide)⟩

lemma zipStrict_eq_zip {α β : Type} :
    ∀ (l1 : List α) (l2 : List β), l1.length = l2.length →
      zipStrict l1 l2 = some (l1.zip l2) := by
  intro l1
  induction l1 with
  | nil =>
    intro l2 h
    cases l2 with
    | nil => rfl
    | cons b t2 => simp at h
  | cons a t ih =>
    intro l2 h
    cases l2 with
    | nil => simp at h
    | cons b t2 =>
      unfold zipStrict
      rw [ih t2 (by simpa using h)]
      rfl

lemma aggRawOf_length (raw : MergeDF) (rsel : List (List Int)) (mx : Int) :
    (aggRawOf raw rsel mx).length = 24 := by
  unfold aggRawOf
  exact capl_length _ _ _

lemma aggMinOf_length (minute : MergeDF) (msel : List (List Int)) (mx : Int) :
    (aggMinOf minute msel mx).length = 24 := by
  unfold aggMinOf
  exact capl_length _ _ _

lemma getD_map_of_lt {α β : Type} (f : α → β) (dα : α) (dβ : β) :
    ∀ (l : List α) (i : Nat), i < l.length → (l.map f).getD i dβ = f (l.getD i dα) := by
  intro l
  induction l with
  | nil =>
    intro i hi
    simp at hi
  | cons a t ih =>
    intro i hi
    cases i with
    | zero => rfl
    | succ j =>
      simp only [List.map_cons, List.getD_cons_succ]
      exact ih j (by simpa using hi)

lemma getD_zip_of_lt {α β : Type} (dα : α) (dβ : β) :
    ∀ (l1 : List α) (l2 : List β) (i : Nat), i < l1.length → i < l2.length →
      (l1.zip l2).getD i (dα, dβ) = (l1.getD i dα, l2.getD i dβ) := by
  intro l1
  induction l1 with
  | nil =>
    intro l2 i h1 _
    simp at h1
  | cons a t ih =>
    intro l2 i h1 h2
    cases l2 with
    | nil => simp at h2
    | cons b t2 =>
      cases i with
      | zero => rfl
      | succ j =>
        simp only [List.zip_cons_cons, List.getD_cons_succ]
        exact ih t2 j (by simpa using h1) (by simpa using h2)

/-- C3: when the raw table has a maximum timestamp `mx` and both tables
carry their vocabulary columns, the merger anchors both aggregator runs
at `start_time` = midnight of the day of `mx` (with `end_time` 23:59:59
of that day), filters the minute table with that raw-derived window
(visible in `aggMinOf`), and returns the two 24-entry sequences paired
positionally, entry `i` carrying the raw entry and the minute entry of
bucket `i`; the strict zip cannot fail because both lengths are 24. -/
theorem c3_merger_anchoring (raw minute : MergeDF) (mx : Int)
    (rsel msel : List (List Int))
    (hmx : (raw.utc.map (fun c => c.t)).max? = some mx)
    (hr : selectCols raw.cols (rawVocab.map Prod.fst) = some rsel)
    (hm : selectCols minute.cols (minuteVocab.map Prod.fst) = some msel) :
    error_codes_hourly raw minute =
      some ({ raw with utc := raw.utc.map toDatetime }, minute,
            mergedPairs raw minute rsel msel mx) ∧
    derivedStart mx = mx / 86400 * 86400 ∧
    derivedEnd mx = mx / 86400 * 86400 + 86399 ∧
    (aggRawOf raw rsel mx).length = 24 ∧
    (aggMinOf minute msel mx).length = 24 ∧
    (mergedPairs raw minute rsel msel mx).length = 24 ∧
    (∀ i, i < 24 →
      (mergedPairs raw minute rsel msel mx).getD i (1, [["D"]], [["D"]]) =
        (((aggRawOf raw rsel mx).getD i (1, [["D"]])).1,
         ((aggRawOf raw rsel mx).getD i (1, [["D"]])).2,
         ((aggMinOf minute msel mx).getD i (1, [["D"]])).2)) := by
  have hmx' : ((raw.utc.map toDatetime).map (fun c => c.t)).max? = some mx := by
    rw [List.map_map]
    exact hmx
  have hlr := aggRawOf_length raw rsel mx
  have hlm := aggMinOf_length minute msel mx
  have hzip := zipStrict_eq_zip (aggRawOf raw rsel mx) (aggMinOf minute msel mx)
    (by rw [hlr, hlm])
  refine ⟨?_, by unfold derivedStart derivedEnd; omega, by unfold derivedEnd; omega,
    hlr, hlm, ?_, ?_⟩
  · simp only [error_codes_hourly, hmx', hr, hm, hzip, mergedPairs]
  · unfold mergedPairs
    rw [List.length_map, List.length_zip, hlr, hlm]
    decide
  · intro i hi
    unfold mergedPairs
    rw [getD_map_of_lt (fun ab => (ab.1.1, ab.1.2, ab.2.2)) ((1, [["D"]]), (1, [["D"]])) _ _ i
      (by rw [List.length_zip, hlr, hlm]; simpa using hi)]
    rw [getD_zip_of_lt (1, [["D"]]) (1, [["D"]]) _ _ i (by rw [hlr]; exact hi)
      (by rw [hlm]; exact hi)]

/-- C3 witness: the concrete one-row tables with all-zero fault columns. -/
theorem c3_witness :
    ((rawW.utc.map (fun c => c.t)).max? = some 0 ∧
     selectCols rawW.cols (rawVocab.map Prod.fst) = some rselW ∧
     selectCols minW.cols (minuteVocab.map Prod.fst) = some mselW) ∧
    (error_codes_hourly rawW minW =
      some ({ rawW with utc := rawW.utc.map toDatetime }, minW,
            mergedPairs rawW minW rselW mselW 0) ∧
    derivedStart 0 = 0 / 86400 * 86400 ∧
    derivedEnd 0 = 0 / 86400 * 86400 + 86399 ∧
    (aggRawOf rawW rselW 0).length = 24 ∧
    (aggMinOf minW mselW 0).length = 24 ∧
    (mergedPairs rawW minW rselW mselW 0).length = 24 ∧
    (∀ i, i < 24 →
      (mergedPairs rawW minW rselW mselW 0).getD i (1, [["D"]], [["D"]]) =
        (((aggRawOf rawW rselW 0).getD i (1, [["D"]])).1,
         ((aggRawOf rawW rselW 0).getD i (1, [["D"]])).2,
         ((aggMinOf minW mselW 0).getD i (1, [["D"]])).2))) :=
  ⟨⟨by decide, by decide, by decide⟩,
   c3_merger_anchoring rawW minW 0 rselW mselW (by decide) (by decide) (by decide)⟩

/-- C9: a successful `error_codes_hourly` call leaves its first argument
with the `utc_datetime` column overwritten by the datetime-converted
values (the in-place `fnl_raw_process["utc_datetime"] = pd.to_datetime(...)`
the caller observes) and every other column unchanged, and leaves the
second argument entirely unchanged. -/
theorem c9_mutation (raw minute pr pm : MergeDF)
    (out : List (Int × List (List String) × List (List String)))
    (h : error_codes_hourly raw minute = some (pr, pm, out)) :
    pr.utc = raw.utc.map toDatetime ∧ pr.cols = raw.cols ∧ pm = minute := by
  unfold error_codes_hourly at h
  split at h
  · exact absurd h (by simp)
  · split at h
    · split at h
      · exact absurd h (by simp)
      · simp only [Option.some.injEq, Prod.mk.injEq] at h
        obtain ⟨h1, h2, _⟩ := h
        rw [← h1, ← h2]
        exact ⟨rfl, rfl, rfl⟩
    · exact absurd h (by simp)

/-- C9 witness: the concrete call on `rawW`/`minW`. -/
theorem c9_witness :
    ({ rawW with utc := rawW.utc.map toDatetime } : MergeDF).utc = rawW.utc.map toDatetime ∧
    ({ rawW with utc := rawW.utc.map toDatetime } : MergeDF).cols = rawW.cols ∧
    minW = minW :=
  c9_mutation rawW minW { rawW with utc := rawW.utc.map toDatetime } minW
    (mergedPairs rawW minW rselW mselW 0) (by rfl)

lemma dfBig_filter_window :
    dfBig.filter (inWindow (startHour 0 0) (endHour 0 0)) = dfBig := by
  rw [List.filter_eq_self]
  intro r hr
  obtain ⟨k, hk, hkr⟩ := List.mem_map.mp hr
  have hk' := List.mem_range.mp hk
  rw [← hkr]
  simp only [dfBigRow, inWindow, Bool.and_eq_true, decide_eq_true_eq, startHour, endHour]
  constructor
  · omega
  · push_cast
    omega

lemma dfBig_count : count_rows_in_range dfBig (startHour 0 0) (endHour 0 0) = 2001 := by
  unfold count_rows_in_range
  rw [dfBig_filter_window]
  unfold dfBig
  rw [List.length_map, List.length_range]

lemma dfBig_pos_aux : ∀ n : Nat, 0 < n →
    ((List.range n).map dfBigRow).countP (fun r => decide (0 < r.vals.getD 0 0)) = 1 := by
  intro n
  induction n with
  | zero =>
    intro h
    simp at h
  | succ m ih =>
    intro _
    rw [List.range_succ, List.map_append, List.countP_append]
    cases Nat.eq_zero_or_pos m with
    | inl h0 =>
      subst h0
      decide
    | inr hpos =>
      rw [ih hpos]
      have hm : m ≠ 0 := Nat.pos_iff_ne_zero.mp hpos
      have hlast : (List.map dfBigRow [m]).countP (fun r => decide (0 < r.vals.getD 0 0)) = 0 := by
        simp [dfBigRow, hm]
      omega

lemma dfBig_pos :
    count_positive_rows_in_range dfBig 1 (startHour 0 0) (endHour 0 0) = [1] := by
  unfold count_positive_rows_in_range
  show [((dfBig.filter (inWindow (startHour 0 0) (endHour 0 0))).filter
    (fun r => decide (0 < r.vals.getD 0 0))).length] = [1]
  rw [dfBig_filter_window, ← List.countP_eq_length_filter]
  rw [show dfBig = (List.range 2001).map dfBigRow from rfl]
  rw [dfBig_pos_aux 2001 (by decide)]

lemma dfBig_percs :
    bucketPercs dfBig ([("ann_obc", "OBC")] : Vocab).length (startHour 0 0) (endHour 0 0) =
      [some (1, 2001)] := by
  unfold bucketPercs
  rw [show ([("ann_obc", "OBC")] : Vocab).length = 1 from rfl, dfBig_pos, dfBig_count]
  rfl

lemma dfBig_pairs :
    bucketPairsQ dfBig [("ann_obc", "OBC")] (startHour 0 0) (endHour 0 0) =
      [("OBC", 1, 2001)] := by
  unfold bucketPairsQ
  rw [dfBig_percs]
  decide

/-- C10: on a bucket holding 2001 samples of which exactly one is
positive, the aggregator keeps the code (its exact percentage `100/2001`
is positive, so it passes the `> 0` filter applied before rounding) yet
the one-decimal rendering displays `0.0`, producing the entry
`"OBC, 0.0"`. -/
theorem c10_display_zero :
    bucketPairsQ dfBig [("ann_obc", "OBC")] (startHour 0 0) (endHour 0 0) =
      [("OBC", 1, 2001)] ∧
    0 < pctValue (1, 2001) ∧
    pctValue (1, 2001) < 1 / 10 ∧
    ((create_annotations_percentages_list dfBig [("ann_obc", "OBC")] 0).getD 0
      (0, [["DEFAULT"]])).2 = [["OBC, 0.0"]] := by
  refine ⟨dfBig_pairs, by norm_num [pctValue], by norm_num [pctValue], ?_⟩
  rw [capl_getD _ _ _ _ (by decide)]
  rw [bucketEntry_eq, dfBig_pairs]
  decide

end ObcSqc
